import Mathlib

/-!
Verification of the sing-shadowtls version-3 server core against its
natural-language specification.

Bytes are modelled as `Nat` (values < 256 in practice; nothing below depends
on the bound).  A Go `hash.Hash` produced by `hmac.New(sha1.New, key)` is
modelled by the pair of its key and the concatenation of everything written
into it so far (`Hmac`); the HMAC-SHA1 digest function itself lives in the Go
standard library, outside this repository, so it is kept abstract as a
parameter `f : List Nat → List Nat → List Nat` mapping (key, message) to the
digest.  `Sum(nil)` is `f key msg`, `Write p` appends `p` to `msg`,
truncation `[:4]` is `List.take 4`.
-/

namespace ShadowTLS

/-- Modelled from the spec: the TLS record-layer constants of the
repository's constants file (the file itself is not under src/; the spec
fixes the values: header 5 bytes, 4-byte truncated HMAC, 32-byte random and
session id, session-id length at offset 43, server random at offset 11). -/
def tlsHeaderSize : Nat := 5

/-- Modelled from the spec: size of the post-handshake record header
(5-byte TLS header plus 4-byte tag). -/
def tlsHmacHeaderSize : Nat := 9

/-- Modelled from the spec: tags are HMAC digests truncated to 4 bytes. -/
def hmacSize : Nat := 4

/-- Modelled from the spec: 32-byte TLS random. -/
def tlsRandomSize : Nat := 32

/-- Modelled from the spec: required session-id length. -/
def tlsSessionIDSize : Nat := 32

/-- Modelled from the spec: offset of the session-id length byte. -/
def sessionIDLengthIndex : Nat := 43

/-- Modelled from the spec: offset of the 32-byte server random. -/
def serverRandomIndex : Nat := 11

/-- Modelled from the spec: TLS content type `handshake`. -/
def handshake : Nat := 22

/-- Modelled from the spec: TLS content type `alert`. -/
def alert : Nat := 21

/-- Modelled from the spec: TLS content type `application_data`. -/
def applicationData : Nat := 23

/-- Modelled from the spec: handshake message type `client_hello`. -/
def clientHello : Nat := 1

/-- Modelled from the spec: handshake message type `server_hello`. -/
def serverHello : Nat := 2

/-- Go slice `l[i:j]`. -/
def slice (l : List Nat) (i j : Nat) : List Nat := (l.drop i).take (j - i)

/-- Big-endian 16-bit encoding, as written by `binary.BigEndian.PutUint16`
after the Go `uint16` conversion. -/
def be16 (n : Nat) : List Nat := [n % 65536 / 256, n % 256]

/-- The digest-function parameter: (key, message) ↦ digest, standing for the
Go-standard-library `hmac.New(sha1.New, key)` hash over `message`. -/
abbrev Digest := List Nat → List Nat → List Nat

/-- State of one `hash.Hash` object: its key and everything written so far. -/
structure Hmac where
  key : List Nat
  msg : List Nat
deriving DecidableEq

/-- `h.Write p` appends `p` to the running input. -/
def Hmac.write (h : Hmac) (p : List Nat) : Hmac := ⟨h.key, h.msg ++ p⟩

/-- `h.Sum(nil)[:hmacSize]` under digest function `f`. -/
def Hmac.tag (f : Digest) (h : Hmac) : List Nat := (f h.key h.msg).take hmacSize

/-- `verifyApplicationData` from v3_conn.go: checks the version bytes and
length, feeds the payload `frame[9:]` into the (stateful) hash, computes the
4-byte tag, optionally feeds the tag back in (`update`), and compares the
tag with `frame[5:9]`.  Returns the comparison result together with the hash
object's final state (Go mutates the object in place). -/
def verifyApplicationData (f : Digest) (frame : List Nat) (h : Hmac) (update : Bool) :
    Bool × Hmac :=
  if frame.getD 1 0 ≠ 3 ∨ frame.getD 2 0 ≠ 3 ∨ frame.length < tlsHmacHeaderSize then
    (false, h)
  else
    let h1 := h.write (frame.drop tlsHmacHeaderSize)
    let t := Hmac.tag f h1
    let h2 := if update then h1.write t else h1
    (decide (slice frame tlsHeaderSize (tlsHeaderSize + hmacSize) = t), h2)

/-- The two HMAC states a `verifiedConn` reader owns. -/
structure VState where
  hmacVerify : Hmac
  hmacIgnore : Option Hmac
deriving DecidableEq

/-- Outcome of `verifiedConn.Read` on one framed inbound record. -/
inductive ReadResult where
  /-- record verified: payload delivered, header stripped -/
  | payload (bytes : List Nat) (s : VState)
  /-- `alert` record: remote closure, no outbound alert -/
  | remoteAlert
  /-- verification failed: outbound alert sent, connection errors out -/
  | verificationFailed (s : VState)
  /-- unexpected content type: outbound alert sent -/
  | unexpectedType (t : Nat)
  /-- record silently discarded by the ignore chain; the loop continues -/
  | ignored (s : VState)
deriving DecidableEq

/-- Whether the outcome makes `Read` call `sendAlert` (v3_conn.go lines
83–92: on verification failure and on an unexpected record type). -/
def ReadResult.alertEmitted : ReadResult → Bool
  | .verificationFailed _ => true
  | .unexpectedType _ => true
  | _ => false

/-- The `hmacVerify` leg of `verifiedConn.Read`: verify in advancing mode;
deliver the payload on success, send an alert and fail otherwise. -/
def readVerifyPhase (f : Digest) (hv : Hmac) (ig : Option Hmac) (frame : List Nat) :
    ReadResult :=
  let r := verifyApplicationData f frame hv true
  if r.1 then ReadResult.payload (frame.drop tlsHmacHeaderSize) ⟨r.2, ig⟩
  else ReadResult.verificationFailed ⟨r.2, ig⟩

/-- One iteration of the `verifiedConn.Read` loop on a fully framed record
(v3_conn.go lines 69–94): alerts close the connection; application data is
first probed against `hmacIgnore` when that chain is non-nil (discarding the
record on a match, and setting `hmacIgnore` to nil on a mismatch), then
verified against `hmacVerify`; anything else is rejected with an alert. -/
def readStep (f : Digest) (s : VState) (frame : List Nat) : ReadResult :=
  if frame.getD 0 0 = alert then ReadResult.remoteAlert
  else if frame.getD 0 0 = applicationData then
    match s.hmacIgnore with
    | some hi =>
      let r := verifyApplicationData f frame hi false
      if r.1 then ReadResult.ignored ⟨s.hmacVerify, some r.2⟩
      else readVerifyPhase f s.hmacVerify none frame
    | none => readVerifyPhase f s.hmacVerify none frame
  else ReadResult.unexpectedType (frame.getD 0 0)

/-- A configured user: just a password (v3_server.go). -/
structure User where
  password : List Nat
deriving DecidableEq

/-- Error taxonomy of `verifyClientHello`. -/
inductive CHError where
  | unexpectedEOF
  | unexpectedRecordType
  | unexpectedHandshakeType
  | unexpectedSessionIDLength
  | hmacMismatch
deriving DecidableEq

/-- `minLen` of `verifyClientHello`: 5 + 1 + 3 + 2 + 32 + 1 + 32. -/
def chMinLen : Nat := tlsHeaderSize + 1 + 3 + 2 + tlsRandomSize + 1 + tlsSessionIDSize

/-- `hmacIndex` of `verifyClientHello`: 43 + 1 + 32 − 4. -/
def chHmacIndex : Nat := sessionIDLengthIndex + 1 + tlsSessionIDSize - hmacSize

/-- The candidate marker for one password: HMAC over
`frame[5:72] || 0x00 0x00 0x00 0x00 || frame[76:]`, truncated to 4 bytes. -/
def clientHelloTag (f : Digest) (password frame : List Nat) : List Nat :=
  (f password (slice frame tlsHeaderSize chHmacIndex ++ [0, 0, 0, 0] ++
    frame.drop (chHmacIndex + hmacSize))).take hmacSize

/-- `verifyClientHello` from v3_server.go: structural checks, then the first
user whose candidate marker equals `frame[72:76]` wins. -/
def verifyClientHello (f : Digest) (frame : List Nat) (users : List User) :
    Except CHError User :=
  if frame.length < chMinLen then Except.error CHError.unexpectedEOF
  else if frame.getD 0 0 ≠ handshake then Except.error CHError.unexpectedRecordType
  else if frame.getD 5 0 ≠ clientHello then Except.error CHError.unexpectedHandshakeType
  else if frame.getD sessionIDLengthIndex 0 ≠ tlsSessionIDSize then
    Except.error CHError.unexpectedSessionIDLength
  else
    match users.find? (fun u =>
        decide (slice frame chHmacIndex (chHmacIndex + hmacSize) =
          clientHelloTag f u.password frame)) with
    | some u => Except.ok u
    | none => Except.error CHError.hmacMismatch

/-- A `bytes.Reader`: the underlying byte slice and the read position. -/
structure Reader where
  data : List Nat
  pos : Nat

/-- `binary.Read(reader, BigEndian, &uint8)`: one byte or an error. -/
def Reader.readByte (r : Reader) : Option (Nat × Reader) :=
  if r.pos < r.data.length then some (r.data.getD r.pos 0, ⟨r.data, r.pos + 1⟩)
  else none

/-- `binary.Read(reader, BigEndian, &uint16)`: two big-endian bytes. -/
def Reader.readU16 (r : Reader) : Option (Nat × Reader) :=
  match r.readByte with
  | none => none
  | some (a, r1) =>
    match r1.readByte with
    | none => none
    | some (b, r2) => some (256 * a + b, r2)

/-- `io.CopyN(io.Discard, reader, n)`: skips `n` bytes, failing when fewer
than `n` remain. -/
def Reader.copyN (r : Reader) (n : Nat) : Option Reader :=
  if r.pos + n ≤ r.data.length then some ⟨r.data, r.pos + n⟩ else none

/-- The extension loop of `isServerHelloSupportTLS13`
(`for i := uint16(0); i < extensionListLength; i++`). -/
def extLoop (n : Nat) (r : Reader) : Bool :=
  match n with
  | 0 => false
  | n + 1 =>
    match r.readU16 with
    | none => false
    | some (extType, r1) =>
      match r1.readU16 with
      | none => false
      | some (extLength, r2) =>
        if extType ≠ 43 then
          match r2.copyN extLength with
          | none => false
          | some r3 => extLoop n r3
        else if extLength ≠ 2 then false
        else
          match r2.readU16 with
          | none => false
          | some (extensionValue, _) => decide (extensionValue = 0x0304)

/-- `isServerHelloSupportTLS13` from v3_server.go: a `bytes.Reader` over
`frame[43:]`, a session-id length byte, two skips, a u16 extension count,
then the extension loop. -/
def isServerHelloSupportTLS13 (frame : List Nat) : Bool :=
  if frame.length < sessionIDLengthIndex then false
  else
    match Reader.readByte ⟨frame.drop sessionIDLengthIndex, 0⟩ with
    | none => false
    | some (sessionIdLength, r1) =>
      match r1.copyN sessionIdLength with
      | none => false
      | some r2 =>
        match r2.copyN 3 with
        | none => false
        | some r3 =>
          match r3.readU16 with
          | none => false
          | some (extensionListLength, r4) => extLoop extensionListLength r4

/-- The claim's description of the extension scan, phrased directly on the
remaining byte list: read (type, length) big-endian pairs in order; the
first `supported_versions` (0x002B) extension decides — its length must be
exactly 2 and its value 0x0304; other extensions skip `length` bytes; any
truncation yields false, as does the end of the list. -/
def tls13ScanSpec (n : Nat) (l : List Nat) : Bool :=
  match n with
  | 0 => false
  | n + 1 =>
    match l with
    | t1 :: t0 :: n1 :: n0 :: body =>
      if 256 * t1 + t0 = 43 then
        if 256 * n1 + n0 = 2 then
          match body with
          | v1 :: v0 :: _ => decide (256 * v1 + v0 = 0x0304)
          | _ => false
        else false
      else if 256 * n1 + n0 ≤ body.length then tls13ScanSpec n (body.drop (256 * n1 + n0))
      else false
    | _ => false

/-- The claim's description of `is_tls13`, phrased directly on byte lists:
from offset 43, a one-byte session-id length, skip that many bytes, skip 3
bytes, a big-endian u16 extension list length, then the extension scan. -/
def isTLS13Spec (frame : List Nat) : Bool :=
  if frame.length < sessionIDLengthIndex then false
  else
    match frame.drop sessionIDLengthIndex with
    | [] => false
    | sessionIdLength :: rest =>
      if sessionIdLength + 3 ≤ rest.length then
        match rest.drop (sessionIdLength + 3) with
        | e1 :: e0 :: body => tls13ScanSpec (256 * e1 + e0) body
        | _ => false
      else false

/-- `copyByFrameUntilHMACMatches` from v3_server.go, on the stream of client
records (already framed by `extractFrame`).  `hmacReset` re-seeds the verify
hash to `⟨key, seed⟩` (the orchestrator's closure writes
`serverRandom ++ "C"`), so each candidate is probed from the fresh seed.
Returns the frames forwarded to the cover, and on a match the stripped first
tunneled payload together with the verify chain's final state. -/
def copyByFrameUntilHMACMatches (f : Digest) (key seed : List Nat) :
    List (List Nat) → List (List Nat) × Option (List Nat × Hmac)
  | [] => ([], none)
  | frame :: rest =>
    if tlsHmacHeaderSize < frame.length ∧ frame.getD 0 0 = applicationData then
      let h1 := Hmac.write ⟨key, seed⟩ (frame.drop tlsHmacHeaderSize)
      if slice frame tlsHeaderSize tlsHmacHeaderSize = Hmac.tag f h1 then
        ([], some (frame.drop tlsHmacHeaderSize,
          h1.write (slice frame tlsHeaderSize tlsHmacHeaderSize)))
      else
        let r := copyByFrameUntilHMACMatches f key seed rest
        (frame :: r.1, r.2)
    else
      let r := copyByFrameUntilHMACMatches f key seed rest
      (frame :: r.1, r.2)

/-- The claim's acceptance predicate for the first tunneled frame: content
type `application_data`, total length over 9 bytes, and `frame[5:9]` equal
to the 4-byte truncated HMAC of the payload under the verify seed. -/
def acceptsFirstFrame (f : Digest) (key seed frame : List Nat) : Bool :=
  decide (frame.getD 0 0 = applicationData) &&
    decide (tlsHmacHeaderSize < frame.length) &&
    decide (slice frame tlsHeaderSize tlsHmacHeaderSize =
      (f key (seed ++ frame.drop tlsHmacHeaderSize)).take hmacSize)

/-- `verifiedConn.write` from v3_conn.go: build the 9-byte header, feed the
payload into `hmacAdd`, take the 4-byte tag, feed the tag back in, and emit
header‖tag‖payload.  Returns the new chain state and the emitted record. -/
def verifiedConnWriteRecord (f : Digest) (h : Hmac) (p : List Nat) :
    Hmac × List Nat :=
  let h1 := h.write p
  let t := Hmac.tag f h1
  (h1.write t,
    applicationData :: 3 :: 3 :: be16 (hmacSize + p.length) ++ t ++ p)

/-- The fragmentation loop of `verifiedConn.Write`: payloads over 16384
bytes are split into successive 16384-byte fragments, each emitted through
`verifiedConnWriteRecord`. -/
def verifiedConnWriteRecords (f : Digest) (h : Hmac) (p : List Nat) :
    Hmac × List (List Nat) :=
  if _hp : p = [] then (h, [])
  else if 16384 < p.length then
    let r := verifiedConnWriteRecord f h (p.take 16384)
    let r2 := verifiedConnWriteRecords f r.1 (p.drop 16384)
    (r2.1, r.2 :: r2.2)
  else
    let r := verifiedConnWriteRecord f h p
    (r.1, [r.2])
termination_by p.length
decreasing_by
  simp only [List.length_drop]
  omega

/-- Fragment lengths: successive 16384-byte chunks. -/
def chunks16 (p : List Nat) : List (List Nat) :=
  if _hp : p = [] then []
  else if 16384 < p.length then p.take 16384 :: chunks16 (p.drop 16384)
  else [p]
termination_by p.length
decreasing_by
  simp only [List.length_drop]
  omega

/-- The claim's record layout for one fragment:
`[0x17, 0x03, 0x03, len_hi, len_lo] ++ tag(4) ++ payload` with the
big-endian length `4 + payload_len` and the tag computed from the chain
state extended by the payload. -/
def specRecord (f : Digest) (h : Hmac) (c : List Nat) : List Nat :=
  applicationData :: 3 :: 3 :: be16 (hmacSize + c.length) ++
    (f h.key (h.msg ++ c)).take hmacSize ++ c

/-- The claim's chain update: after a fragment, the chain has absorbed the
payload and then the tag. -/
def specAdvance (f : Digest) (h : Hmac) (c : List Nat) : Hmac :=
  ⟨h.key, h.msg ++ c ++ (f h.key (h.msg ++ c)).take hmacSize⟩

/-- The claim's description of a fragmented write: one `specRecord` per
fragment, the chain threaded through by `specAdvance`. -/
def specEmit (f : Digest) (h : Hmac) : List (List Nat) → Hmac × List (List Nat)
  | [] => (h, [])
  | c :: cs =>
    let r := specEmit f (specAdvance f h c) cs
    (r.1, specRecord f h c :: r.2)

/-- Number of fragments `verifiedConn.Write` emits for a payload. -/
def numFragments (p : List Nat) : Nat :=
  if _hp : p = [] then 0
  else if 16384 < p.length then 1 + numFragments (p.drop 16384)
  else 1
termination_by p.length
decreasing_by
  simp only [List.length_drop]
  omega

/-- The error-threading of the `verifiedConn.Write` loop: `uw i` tells
whether the underlying vectorised write of fragment `i` succeeds; the Go
loop overwrites `err` on every iteration (`_, err = c.write(pWrite)`) and
never breaks, so the value after the loop is the last fragment's outcome.
Returns `true` when an error is left in `err`. -/
def writeLoopErr (uw : Nat → Bool) (i : Nat) (p : List Nat) (e : Bool) : Bool :=
  if _hp : p = [] then e
  else if 16384 < p.length then writeLoopErr uw (i + 1) (p.drop 16384) (!uw i)
  else !uw i
termination_by p.length
decreasing_by
  simp only [List.length_drop]
  omega

/-- `verifiedConn.Write` from v3_conn.go, result view: `n = len(p)` exactly
when the loop leaves a nil `err`, else `n = 0`. -/
def verifiedConnWriteResult (uw : Nat → Bool) (p : List Nat) : Nat × Bool :=
  let e := writeLoopErr uw 0 p false
  (if e then 0 else p.length, e)

/-- `ServiceConfig`: the fields `NewService` inspects.  The external
`M.Socksaddr.IsValid`, the presence of the handler and of the logger are
modelled as booleans; the version is a Go `int`. -/
structure ServiceConfig where
  version : Int
  password : List Nat
  handshakeServerValid : Bool
  handlerPresent : Bool
  loggerPresent : Bool

/-- The fields of the constructed `Service` relevant here. -/
structure Service where
  version : Int
  password : List Nat
deriving DecidableEq

/-- The two error returns of `NewService`: `os.ErrInvalid` and
`unknown protocol version` (the spec groups both under `InvalidConfig`). -/
inductive ServiceError where
  | invalidConfig
  | unknownVersion (v : Int)
deriving DecidableEq

/-- `NewService` from the service file: reject when the cover-host address
is invalid, the handler is absent or the logger is absent; then reject any
version other than 1, 2 or 3; otherwise return the service. -/
def NewService (c : ServiceConfig) : Except ServiceError Service :=
  if !c.handshakeServerValid || !c.handlerPresent || !c.loggerPresent then
    Except.error ServiceError.invalidConfig
  else if c.version = 1 ∨ c.version = 2 ∨ c.version = 3 then
    Except.ok ⟨c.version, c.password⟩
  else Except.error (ServiceError.unknownVersion c.version)

/-- The four HMAC states set up by the version-3 branch of
`Service.NewConnection` just before the relay phase. -/
structure V3Chains where
  /-- `hmacWrite`: used by `copyByFrameWithModification` to tag rewritten
  cover records during the handshake relay. -/
  hmacWrite : Hmac
  /-- `hmacAdd`: installed as the `verifiedConn` write-side chain. -/
  hmacAdd : Hmac
  /-- `hmacVerify` after the first `hmacVerifyReset()`. -/
  hmacVerify : Hmac
  /-- the `hmacIgnore` argument of the `newVerifiedConn` call. -/
  hmacIgnore : Option Hmac
deriving DecidableEq

/-- The chain construction of `Service.NewConnection` (version-3 branch):
`hmacWrite` is keyed with the password and fed `serverRandom`; `hmacAdd` is
fed `serverRandom` then `"S"` (0x53); `hmacVerify` is re-seeded by
`hmacVerifyReset` with `serverRandom` then `"C"` (0x43); and the
`newVerifiedConn(conn, hmacAdd, hmacVerify, nil)` call passes nil for
`hmacIgnore`. -/
def serviceNewConnectionChains (password serverRandom : List Nat) : V3Chains :=
  { hmacWrite := ⟨password, serverRandom⟩
    hmacAdd := ⟨password, serverRandom ++ [83]⟩
    hmacVerify := ⟨password, serverRandom ++ [67]⟩
    hmacIgnore := none }

/-! Concrete fixtures used by counterexamples and witnesses. -/

/-- A digest function returning the constant 4-byte string `[1,1,1,1]`. -/
def cxDigest1 : Digest := fun _ _ => [1, 1, 1, 1]

/-- A digest function returning the constant 4-byte string `[5,5,5,5]`. -/
def cxDigest5 : Digest := fun _ _ => [5, 5, 5, 5]

/-- A digest function returning the constant 3-byte string `[7,7,7]`. -/
def cxDigest3 : Digest := fun _ _ => [7, 7, 7]

/-- A password fixture. -/
def cxPassword : List Nat := [104, 117, 110, 116, 101, 114, 50]

/-- A 32-byte server-random fixture. -/
def cxServerRandom : List Nat := List.replicate 32 0

/-- An application-data record whose tag `[9,9,9,9]` does not match
`cxDigest5`. -/
def cxFrameBad : List Nat := [23, 3, 3, 0, 5, 9, 9, 9, 9, 77]

/-- An application-data record whose tag `[5,5,5,5]` matches `cxDigest5`. -/
def cxFrameGood : List Nat := [23, 3, 3, 0, 5, 5, 5, 5, 5, 77]

/-- An application-data record whose tag `[1,1,1,1]` matches `cxDigest1`. -/
def cxFrameEcho : List Nat := [23, 3, 3, 0, 5, 1, 1, 1, 1, 42]

/-- An application-data record with version bytes `0x03 0x04` and the tag
`[1,1,1,1]` that `cxDigest1` would produce. -/
def cxFrameBadVer : List Nat := [23, 3, 4, 0, 5, 1, 1, 1, 1, 9]

/-- A small HMAC chain state fixture. -/
def cxChain : Hmac := ⟨[1], [2]⟩

/-- Reader state with the ignore chain armed. -/
def cxState0 : VState := ⟨⟨[1], [67]⟩, some ⟨[1], [83]⟩⟩

/-- `cxState0` after the ignore chain absorbed the payload `[42]`. -/
def cxState1 : VState := ⟨⟨[1], [67]⟩, some ⟨[1], [83, 42]⟩⟩

/-- `cxState1` after the ignore chain absorbed the payload `[42]` again. -/
def cxState2 : VState := ⟨⟨[1], [67]⟩, some ⟨[1], [83, 42, 42]⟩⟩

/-- Reader state with no ignore chain. -/
def cxState3 : VState := ⟨⟨[2], [67]⟩, none⟩

/-- A verification attempt on a record whose version bytes are wrong fails
without touching the hash state, whatever the mode. -/
theorem verifyAppData_badVersion (f : Digest) (frame : List Nat) (h : Hmac) (u : Bool)
    (hver : frame.getD 1 0 ≠ 3 ∨ frame.getD 2 0 ≠ 3) :
    verifyApplicationData f frame h u = (false, h) := by
  unfold verifyApplicationData
  rcases hver with h1 | h2
  · rw [if_pos (Or.inl h1)]
  · rw [if_pos (Or.inr (Or.inl h2))]

/-- Claim C1 (corrected): in the version-3 branch of `Service.NewConnection`
the `verifiedConn` write-side chain `hmacAdd` is keyed with the password and
seeded with `serverRandom ++ "S"`, the chain seeded with `serverRandom`
alone is `hmacWrite` (the handshake-relay rewrite chain), and the
`hmacIgnore` argument of `newVerifiedConn` is nil; consequently every
outbound record written on the fresh `verifiedConn` is tagged with the
4-byte truncation of `f(password, serverRandom ++ "S" ++ payload)`. -/
theorem C1_v3_chain_roles (password serverRandom p : List Nat) (f : Digest) :
    (serviceNewConnectionChains password serverRandom).hmacAdd =
      ⟨password, serverRandom ++ [83]⟩ ∧
    (serviceNewConnectionChains password serverRandom).hmacIgnore = none ∧
    (serviceNewConnectionChains password serverRandom).hmacWrite =
      ⟨password, serverRandom⟩ ∧
    (verifiedConnWriteRecord f
        (serviceNewConnectionChains password serverRandom).hmacAdd p).2 =
      applicationData :: 3 :: 3 :: be16 (hmacSize + p.length) ++
        (f password (serverRandom ++ [83] ++ p)).take hmacSize ++ p := by
  refine ⟨rfl, rfl, rfl, ?_⟩
  simp [serviceNewConnectionChains, verifiedConnWriteRecord, Hmac.write, Hmac.tag,
    List.append_assoc]

/-- Claim C1, counterexample to the claim as stated: at a concrete password
and server random, the installed write-side chain is not seeded with the
server random alone, and the chain seeded with `serverRandom ++ "S"` is not
installed as `hmacIgnore` (which is nil). -/
theorem C1_v3_chain_roles_cx :
    ¬ ((serviceNewConnectionChains cxPassword cxServerRandom).hmacAdd =
        ⟨cxPassword, cxServerRandom⟩ ∧
      (serviceNewConnectionChains cxPassword cxServerRandom).hmacIgnore =
        some ⟨cxPassword, cxServerRandom ++ [83]⟩) := by
  decide

/-- Claim C8 (confirmed): `NewService` returns an error exactly when the
cover-host address is invalid, the handler is absent, the logger is absent,
or the version is not 1, 2 or 3; on every other configuration it returns
the service and no error. -/
theorem C8_new_service (c : ServiceConfig) :
    ((∃ e, NewService c = Except.error e) ↔
      (c.handshakeServerValid = false ∨ c.handlerPresent = false ∨
        c.loggerPresent = false ∨
        ¬(c.version = 1 ∨ c.version = 2 ∨ c.version = 3))) ∧
    ((c.handshakeServerValid = true ∧ c.handlerPresent = true ∧
        c.loggerPresent = true ∧
        (c.version = 1 ∨ c.version = 2 ∨ c.version = 3)) →
      NewService c = Except.ok ⟨c.version, c.password⟩) := by
  obtain ⟨v, pw, a, b, l⟩ := c
  cases a <;> cases b <;> cases l <;>
    by_cases hv : (v = 1 ∨ v = 2 ∨ v = 3) <;>
      simp [NewService, hv]

/-- A valid configuration fixture for the `NewService` witness. -/
def cxConfig : ServiceConfig := ⟨3, [104], true, true, true⟩

/-- Claim C8, witness: a concrete valid configuration yields the service. -/
theorem C8_new_service_witness :
    NewService cxConfig = Except.ok ⟨3, [104]⟩ :=
  (C8_new_service cxConfig).2 ⟨rfl, rfl, rfl, Or.inr (Or.inr rfl)⟩

/-- Claim C4 (amended): once the version and length checks pass, a
verification attempt always advances the tested HMAC chain by the record's
payload, and in advancing mode additionally by the computed tag — whether
or not the tag comparison succeeds.  (The claim as stated, that an
unsuccessful attempt leaves the chain unchanged, is false.) -/
theorem C4_chain_state_on_failure (f : Digest) (frame : List Nat) (h : Hmac)
    (u : Bool) (h1 : frame.getD 1 0 = 3) (h2 : frame.getD 2 0 = 3)
    (h3 : tlsHmacHeaderSize ≤ frame.length) :
    (verifyApplicationData f frame h u).2 =
      if u then
        (h.write (frame.drop tlsHmacHeaderSize)).write
          (Hmac.tag f (h.write (frame.drop tlsHmacHeaderSize)))
      else h.write (frame.drop tlsHmacHeaderSize) := by
  have hguard : ¬ (frame.getD 1 0 ≠ 3 ∨ frame.getD 2 0 ≠ 3 ∨
      frame.length < tlsHmacHeaderSize) := by
    push_neg
    exact ⟨h1, h2, h3⟩
  unfold verifyApplicationData
  rw [if_neg hguard]

/-- Claim C4, counterexample to the claim as stated: concrete failed
verification attempts — in read-only mode and in advancing mode — do change
the tested chain's state, and so does a successful read-only test. -/
theorem C4_chain_state_on_failure_cx :
    ((verifyApplicationData cxDigest5 cxFrameBad cxChain false).1 = false ∧
      (verifyApplicationData cxDigest5 cxFrameBad cxChain false).2 ≠ cxChain) ∧
    ((verifyApplicationData cxDigest5 cxFrameBad cxChain true).1 = false ∧
      (verifyApplicationData cxDigest5 cxFrameBad cxChain true).2 ≠ cxChain) ∧
    ((verifyApplicationData cxDigest5 cxFrameGood cxChain false).1 = true ∧
      (verifyApplicationData cxDigest5 cxFrameGood cxChain false).2 ≠ cxChain) := by
  decide

/-- Claim C4, witness for the amended theorem at a concrete failing input. -/
theorem C4_chain_state_on_failure_witness :
    (verifyApplicationData cxDigest5 cxFrameBad cxChain true).2 =
      if true then
        (cxChain.write (cxFrameBad.drop tlsHmacHeaderSize)).write
          (Hmac.tag cxDigest5 (cxChain.write (cxFrameBad.drop tlsHmacHeaderSize)))
      else cxChain.write (cxFrameBad.drop tlsHmacHeaderSize) :=
  C4_chain_state_on_failure cxDigest5 cxFrameBad cxChain true (by decide) (by decide)
    (by decide)

/-- Claim C3 (amended): on a `verifiedConn` whose `hmacIgnore` chain is
non-null, an inbound application-data record matching `hmacIgnore` is
discarded while `hmacIgnore` stays enabled (advanced by the record's
payload); `hmacIgnore` is disabled on the first record it does not match,
and only then is the record checked against `hmacVerify`.  (The claim as
stated — disabled after a match — is false.) -/
theorem C3_ignore_one_shot (f : Digest) (s : VState) (frame : List Nat) (hi : Hmac)
    (hig : s.hmacIgnore = some hi)
    (hty : frame.getD 0 0 = applicationData) :
    ((verifyApplicationData f frame hi false).1 = true →
      readStep f s frame =
        ReadResult.ignored
          ⟨s.hmacVerify, some (verifyApplicationData f frame hi false).2⟩) ∧
    ((verifyApplicationData f frame hi false).1 = false →
      readStep f s frame = readVerifyPhase f s.hmacVerify none frame) := by
  have hne : ¬ frame.getD 0 0 = alert := by
    rw [hty]; decide
  constructor <;> intro hm <;>
    · unfold readStep
      rw [if_neg hne, if_pos hty, hig]
      simp [hm]

/-- Claim C3, counterexample to the claim as stated: at concrete inputs the
first matching record is discarded but `hmacIgnore` stays non-null, and a
second record that also matches is again discarded instead of being
verified against `hmacVerify`. -/
theorem C3_ignore_one_shot_cx :
    readStep cxDigest1 cxState0 cxFrameEcho = ReadResult.ignored cxState1 ∧
    cxState1.hmacIgnore ≠ none ∧
    readStep cxDigest1 cxState1 cxFrameEcho = ReadResult.ignored cxState2 := by
  decide

/-- Claim C3, witness for the amended theorem at a concrete matching
record. -/
theorem C3_ignore_one_shot_witness :
    readStep cxDigest1 cxState0 cxFrameEcho =
      ReadResult.ignored
        ⟨cxState0.hmacVerify,
          some (verifyApplicationData cxDigest1 cxFrameEcho ⟨[1], [83]⟩ false).2⟩ :=
  (C3_ignore_one_shot cxDigest1 cxState0 cxFrameEcho ⟨[1], [83]⟩ rfl (by decide)).1
    (by decide)

/-- Claim C10 (confirmed): an inbound application-data record whose version
bytes at offsets 1–2 are not `0x03 0x03` always fails verification: `Read`
sends an outbound alert and returns the verification failure, for every
digest function — in particular even when the 4-byte tag would match the
chained HMAC of the payload. -/
theorem C10_bad_version_fails (f : Digest) (s : VState) (frame : List Nat)
    (hty : frame.getD 0 0 = applicationData)
    (hver : frame.getD 1 0 ≠ 3 ∨ frame.getD 2 0 ≠ 3) :
    readStep f s frame = ReadResult.verificationFailed ⟨s.hmacVerify, none⟩ ∧
    (readStep f s frame).alertEmitted = true := by
  have hne : ¬ frame.getD 0 0 = alert := by
    rw [hty]; decide
  have hstep : readStep f s frame = ReadResult.verificationFailed ⟨s.hmacVerify, none⟩ := by
    unfold readStep
    rw [if_neg hne, if_pos hty]
    have hvp : readVerifyPhase f s.hmacVerify none frame =
        ReadResult.verificationFailed ⟨s.hmacVerify, none⟩ := by
      unfold readVerifyPhase
      rw [verifyAppData_badVersion f frame s.hmacVerify true hver]
      simp
    cases hig : s.hmacIgnore with
    | none => exact hvp
    | some hi =>
      simp [verifyAppData_badVersion f frame hi false hver, hvp]
  exact ⟨hstep, by rw [hstep]; rfl⟩

/-- Claim C10, witness: a concrete record with version bytes `0x03 0x04`
whose tag equals the digest the chain would compute still fails and emits
an alert. -/
theorem C10_bad_version_fails_witness :
    readStep cxDigest1 cxState3 cxFrameBadVer =
      ReadResult.verificationFailed ⟨cxState3.hmacVerify, none⟩ ∧
    (readStep cxDigest1 cxState3 cxFrameBadVer).alertEmitted = true :=
  C10_bad_version_fails cxDigest1 cxState3 cxFrameBadVer (by decide)
    (Or.inr (by decide))

/-- When the four structural checks pass, `verifyClientHello` is decided by
the first user whose candidate marker matches. -/
theorem verifyClientHello_eq_find (f : Digest) (frame : List Nat) (users : List User)
    (hL : ¬ frame.length < chMinLen) (h0 : frame.getD 0 0 = handshake)
    (h5 : frame.getD 5 0 = clientHello)
    (h43 : frame.getD sessionIDLengthIndex 0 = tlsSessionIDSize) :
    verifyClientHello f frame users =
      match users.find? (fun u =>
          decide (slice frame chHmacIndex (chHmacIndex + hmacSize) =
            clientHelloTag f u.password frame)) with
      | some u => Except.ok u
      | none => Except.error CHError.hmacMismatch := by
  unfold verifyClientHello
  rw [if_neg hL, if_neg (not_not_intro h0), if_neg (not_not_intro h5),
    if_neg (not_not_intro h43)]

/-- Claim C2 (amended): the ClientHello authenticator accepts a frame iff
the frame is at least 76 bytes long (the sum 5+1+3+2+32+1+32 is 76, not the
75 the spec states), byte 0 is `handshake`, byte 5 is `client_hello`,
byte 43 equals 32, and some user's password produces a matching 4-byte
marker over `frame[5:72] || 0⁴ || frame[76:]`; any frame shorter than 76
bytes is rejected with the EOF error, and when the structural checks pass
but no user matches it fails with the HMAC mismatch error. -/
theorem C2_clientHello_auth (f : Digest) (frame : List Nat) (users : List User) :
    ((∃ u, verifyClientHello f frame users = Except.ok u) ↔
      (chMinLen ≤ frame.length ∧ frame.getD 0 0 = handshake ∧
        frame.getD 5 0 = clientHello ∧
        frame.getD sessionIDLengthIndex 0 = tlsSessionIDSize ∧
        ∃ u ∈ users, slice frame chHmacIndex (chHmacIndex + hmacSize) =
          clientHelloTag f u.password frame)) ∧
    (frame.length < chMinLen →
      verifyClientHello f frame users = Except.error CHError.unexpectedEOF) ∧
    ((chMinLen ≤ frame.length ∧ frame.getD 0 0 = handshake ∧
        frame.getD 5 0 = clientHello ∧
        frame.getD sessionIDLengthIndex 0 = tlsSessionIDSize ∧
        ∀ u ∈ users, slice frame chHmacIndex (chHmacIndex + hmacSize) ≠
          clientHelloTag f u.password frame) →
      verifyClientHello f frame users = Except.error CHError.hmacMismatch) ∧
    chMinLen = 76 := by
  refine ⟨⟨?_, ?_⟩, ?_, ?_, rfl⟩
  · rintro ⟨u, hu⟩
    unfold verifyClientHello at hu
    split at hu
    next => exact absurd hu (by simp)
    next hL =>
      split at hu
      next => exact absurd hu (by simp)
      next h0 =>
        split at hu
        next => exact absurd hu (by simp)
        next h5 =>
          split at hu
          next => exact absurd hu (by simp)
          next h43 =>
            split at hu
            next u2 hfind =>
              injection hu with hu2
              subst hu2
              have hp := List.find?_some hfind
              exact ⟨Nat.le_of_not_lt hL, of_not_not h0, of_not_not h5,
                of_not_not h43, u2, List.mem_of_find?_eq_some hfind,
                of_decide_eq_true hp⟩
            next => exact absurd hu (by simp)
  · rintro ⟨hL, h0, h5, h43, u, hmem, htag⟩
    rw [verifyClientHello_eq_find f frame users (Nat.not_lt.mpr hL) h0 h5 h43]
    cases hfind : users.find? (fun u =>
        decide (slice frame chHmacIndex (chHmacIndex + hmacSize) =
          clientHelloTag f u.password frame)) with
    | none =>
      exfalso
      have hnone := List.find?_eq_none.mp hfind u hmem
      exact hnone (decide_eq_true htag)
    | some u2 => exact ⟨u2, rfl⟩
  · intro hshort
    unfold verifyClientHello
    rw [if_pos hshort]
  · rintro ⟨hL, h0, h5, h43, hall⟩
    rw [verifyClientHello_eq_find f frame users (Nat.not_lt.mpr hL) h0 h5 h43]
    cases hfind : users.find? (fun u =>
        decide (slice frame chHmacIndex (chHmacIndex + hmacSize) =
          clientHelloTag f u.password frame)) with
    | none => rfl
    | some u2 =>
      have hp := List.find?_some hfind
      exact absurd (of_decide_eq_true hp)
        (hall u2 (List.mem_of_find?_eq_some hfind))

/-- A 75-byte frame meeting every condition of the claim as stated (with a
3-byte digest so the marker comparison can succeed at this length). -/
def cxFrame75 : List Nat :=
  [22, 0, 0, 0, 70, 1] ++ List.replicate 37 0 ++ [32] ++ List.replicate 28 0 ++
    [7, 7, 7]

/-- A one-user list fixture. -/
def cxUsers : List User := [⟨[104]⟩]

/-- Claim C2, counterexample to the claim as stated: a 75-byte frame that
satisfies the claim's acceptance conditions (length at least 75, the three
byte checks, and a user whose marker over `frame[5:72] || 0⁴ || frame[76:]`
equals `frame[72:76]`) is nonetheless rejected, because the code's minimum
is 76. -/
theorem C2_clientHello_auth_cx :
    (75 ≤ cxFrame75.length ∧ cxFrame75.getD 0 0 = 22 ∧ cxFrame75.getD 5 0 = 1 ∧
      cxFrame75.getD 43 0 = 32 ∧
      ∃ u ∈ cxUsers, slice cxFrame75 72 76 =
        clientHelloTag cxDigest3 u.password cxFrame75) ∧
    verifyClientHello cxDigest3 cxFrame75 cxUsers =
      Except.error CHError.unexpectedEOF :=
  ⟨by decide, by rfl⟩

/-- Claim C2, witness: the amended theorem applied to a concrete short
frame. -/
theorem C2_clientHello_auth_witness :
    List.length ([22] : List Nat) < chMinLen ∧
    verifyClientHello cxDigest3 [22] cxUsers = Except.error CHError.unexpectedEOF :=
  ⟨by decide, (C2_clientHello_auth cxDigest3 [22] cxUsers).2.1 (by decide)⟩

/-- Claim C6 (confirmed): in the client→cover relay loop, the frames
forwarded to the cover are exactly the longest prefix of non-accepted
records (each forwarded unchanged, and none of an accepted record's bytes
among them), and the loop returns the first record accepted by the claim's
predicate — application data, longer than 9 bytes, tag `frame[5:9]` equal
to the truncated HMAC of the payload under the fresh verify seed — stripped
of its 9-byte header, with the verify chain advanced by payload then tag. -/
theorem C6_first_frame_relay (f : Digest) (key seed : List Nat)
    (frames : List (List Nat)) :
    (copyByFrameUntilHMACMatches f key seed frames).1 =
      frames.takeWhile (fun g => !acceptsFirstFrame f key seed g) ∧
    (copyByFrameUntilHMACMatches f key seed frames).2 =
      (frames.find? (acceptsFirstFrame f key seed)).map
        (fun g => (g.drop tlsHmacHeaderSize,
          ⟨key, seed ++ g.drop tlsHmacHeaderSize ++
            (f key (seed ++ g.drop tlsHmacHeaderSize)).take hmacSize⟩)) := by
  induction frames with
  | nil => exact ⟨rfl, rfl⟩
  | cons frame rest ih =>
    rcases ih with ⟨ih1, ih2⟩
    by_cases hc : tlsHmacHeaderSize < frame.length ∧ frame.getD 0 0 = applicationData
    · by_cases ht : slice frame tlsHeaderSize tlsHmacHeaderSize =
          Hmac.tag f (Hmac.write ⟨key, seed⟩ (frame.drop tlsHmacHeaderSize))
      · have hacc : acceptsFirstFrame f key seed frame = true := by
          unfold acceptsFirstFrame
          simp only [Bool.and_eq_true, decide_eq_true_eq]
          exact ⟨⟨hc.2, hc.1⟩, ht⟩
        constructor
        · unfold copyByFrameUntilHMACMatches
          rw [if_pos hc, if_pos ht, List.takeWhile_cons_of_neg (by simp [hacc])]
        · unfold copyByFrameUntilHMACMatches
          rw [if_pos hc, if_pos ht, List.find?_cons_of_pos _ hacc]
          rw [ht]
          rfl
      · have hacc : ¬ acceptsFirstFrame f key seed frame = true := by
          unfold acceptsFirstFrame
          simp only [Bool.and_eq_true, decide_eq_true_eq]
          rintro ⟨⟨_, _⟩, hC⟩
          exact ht hC
        constructor
        · unfold copyByFrameUntilHMACMatches
          rw [if_pos hc, if_neg ht, List.takeWhile_cons_of_pos (by simp [hacc])]
          show frame :: (copyByFrameUntilHMACMatches f key seed rest).1 = _
          rw [ih1]
        · unfold copyByFrameUntilHMACMatches
          rw [if_pos hc, if_neg ht, List.find?_cons_of_neg _ hacc]
          exact ih2
    · have hacc : ¬ acceptsFirstFrame f key seed frame = true := by
        unfold acceptsFirstFrame
        simp only [Bool.and_eq_true, decide_eq_true_eq]
        rintro ⟨⟨hA, hB⟩, _⟩
        exact hc ⟨hB, hA⟩
      constructor
      · unfold copyByFrameUntilHMACMatches
        rw [if_neg hc, List.takeWhile_cons_of_pos (by simp [hacc])]
        show frame :: (copyByFrameUntilHMACMatches f key seed rest).1 = _
        rw [ih1]
      · unfold copyByFrameUntilHMACMatches
        rw [if_neg hc, List.find?_cons_of_neg _ hacc]
        exact ih2

/-- A non-empty payload yields at least one fragment. -/
theorem numFragments_pos (p : List Nat) (hp : p ≠ []) : 1 ≤ numFragments p := by
  unfold numFragments
  rw [dif_neg hp]
  split <;> omega

/-- The error value left by the `Write` loop is the outcome of its last
fragment: every earlier outcome is overwritten. -/
theorem writeLoopErr_eq (uw : Nat → Bool) :
    ∀ n (p : List Nat), p.length ≤ n → p ≠ [] → ∀ i e,
      writeLoopErr uw i p e = !uw (i + (numFragments p - 1)) := by
  intro n
  induction n with
  | zero =>
    intro p hlen hne
    cases p with
    | nil => exact absurd rfl hne
    | cons a l => simp at hlen
  | succ n ihn =>
    intro p hlen hne i e
    unfold writeLoopErr numFragments
    rw [dif_neg hne, dif_neg hne]
    by_cases hl : 16384 < p.length
    · rw [if_pos hl, if_pos hl]
      have hne2 : p.drop 16384 ≠ [] := by
        refine List.length_pos.mp ?_
        rw [List.length_drop]
        omega
      have hlen2 : (p.drop 16384).length ≤ n := by
        rw [List.length_drop]
        omega
      rw [ihn (p.drop 16384) hlen2 hne2 (i + 1) (!uw i)]
      have h1 := numFragments_pos (p.drop 16384) hne2
      have harith : i + 1 + (numFragments (p.drop 16384) - 1) =
          i + (1 + numFragments (p.drop 16384) - 1) := by omega
      rw [harith]
    · rw [if_neg hl, if_neg hl]
      simp

/-- Claim C9 (confirmed): when a payload splits into several fragments, the
`Write` loop overwrites the error of every non-final fragment; if the final
fragment's underlying write succeeds, `Write` returns the full payload
length and no error even when an earlier fragment failed, and in general an
error is reported exactly when the final fragment's underlying write
fails. -/
theorem C9_write_error_overwrite (uw : Nat → Bool) (p : List Nat) (j : Nat)
    (hlen : 16384 < p.length) (_hj : j + 1 < numFragments p) (_hjf : uw j = false)
    (hfinal : uw (numFragments p - 1) = true) :
    verifiedConnWriteResult uw p = (p.length, false) ∧
    ∀ uw2 : Nat → Bool,
      (verifiedConnWriteResult uw2 p).2 = !uw2 (numFragments p - 1) := by
  have hne : p ≠ [] := by
    refine List.length_pos.mp ?_
    omega
  constructor
  · have he : writeLoopErr uw 0 p false = false := by
      rw [writeLoopErr_eq uw p.length p le_rfl hne 0 false]
      simp [hfinal]
    show (if writeLoopErr uw 0 p false then 0 else p.length,
      writeLoopErr uw 0 p false) = (p.length, false)
    rw [he]
    simp
  · intro uw2
    show writeLoopErr uw2 0 p false = !uw2 (numFragments p - 1)
    rw [writeLoopErr_eq uw2 p.length p le_rfl hne 0 false]
    simp

/-- A 20000-byte payload fixture. -/
def payload20000 : List Nat := List.replicate 20000 0

/-- An underlying-write schedule whose fragment 0 fails and every later
fragment succeeds. -/
def cxUW : Nat → Bool := fun i => decide (i ≠ 0)

/-- A 20000-byte payload splits into two fragments. -/
theorem numFragments_payload20000 : numFragments payload20000 = 2 := by
  have h2 : payload20000.length = 20000 := List.length_replicate _ _
  have h1 : payload20000 ≠ [] := by
    refine List.length_pos.mp ?_
    rw [h2]
    norm_num
  have hd : payload20000.drop 16384 = List.replicate 3616 0 := by
    rw [payload20000, List.drop_replicate]
  unfold numFragments
  rw [dif_neg h1, if_pos (by rw [h2]; norm_num), hd]
  unfold numFragments
  rw [dif_neg (show List.replicate 3616 (0 : Nat) ≠ [] from
      List.length_pos.mp (by rw [List.length_replicate]; norm_num)),
    if_neg (by rw [List.length_replicate]; norm_num)]

/-- Claim C9, witness: with a concrete 20000-byte payload whose first
fragment's underlying write fails and whose final fragment succeeds,
`Write` reports the full length and no error. -/
theorem C9_write_error_overwrite_witness :
    16384 < payload20000.length ∧ cxUW 0 = false ∧
    cxUW (numFragments payload20000 - 1) = true ∧
    verifiedConnWriteResult cxUW payload20000 = (payload20000.length, false) :=
  have h2 : payload20000.length = 20000 := List.length_replicate _ _
  have hlen : 16384 < payload20000.length := by rw [h2]; norm_num
  have hj : 0 + 1 < numFragments payload20000 := by
    rw [numFragments_payload20000]
    norm_num
  have hfinal : cxUW (numFragments payload20000 - 1) = true := by
    rw [numFragments_payload20000]
    rfl
  ⟨hlen, rfl, hfinal,
    (C9_write_error_overwrite cxUW payload20000 0 hlen hj rfl hfinal).1⟩

/-- One `verifiedConn.write` call emits exactly the claim's record and
performs exactly the claim's chain update. -/
theorem writeRecord_spec (f : Digest) (h : Hmac) (c : List Nat) :
    verifiedConnWriteRecord f h c = (specAdvance f h c, specRecord f h c) := by
  rfl

/-- The fragmentation loop of `Write` equals the claim's per-chunk
description. -/
theorem writeRecords_eq_specEmit (f : Digest) :
    ∀ n (p : List Nat), p.length ≤ n → ∀ h,
      verifiedConnWriteRecords f h p = specEmit f h (chunks16 p) := by
  intro n
  induction n with
  | zero =>
    intro p hlen h
    have hp : p = [] := List.length_eq_zero.mp (Nat.le_zero.mp hlen)
    subst hp
    unfold verifiedConnWriteRecords chunks16
    rw [dif_pos rfl, dif_pos rfl]
    rfl
  | succ n ihn =>
    intro p hlen h
    by_cases hp : p = []
    · subst hp
      unfold verifiedConnWriteRecords chunks16
      rw [dif_pos rfl, dif_pos rfl]
      rfl
    · by_cases hl : 16384 < p.length
      · unfold verifiedConnWriteRecords chunks16
        rw [dif_neg hp, dif_neg hp, if_pos hl, if_pos hl, writeRecord_spec]
        show ((verifiedConnWriteRecords f
              (specAdvance f h (List.take 16384 p)) (List.drop 16384 p)).1,
            specRecord f h (List.take 16384 p) ::
              (verifiedConnWriteRecords f
                (specAdvance f h (List.take 16384 p)) (List.drop 16384 p)).2) =
          specEmit f h (List.take 16384 p :: chunks16 (List.drop 16384 p))
        rw [ihn (p.drop 16384) (by rw [List.length_drop]; omega)
          (specAdvance f h (p.take 16384))]
        rfl
      · unfold verifiedConnWriteRecords chunks16
        rw [dif_neg hp, dif_neg hp, if_neg hl, if_neg hl, writeRecord_spec]
        rfl

/-- With 4-byte (or longer) digests, each emitted record is 9 bytes longer
than its payload chunk. -/
theorem specEmit_payload_lengths (f : Digest) (hf : ∀ k m, 4 ≤ (f k m).length) :
    ∀ (cs : List (List Nat)) (h : Hmac),
      (specEmit f h cs).2.map (fun r => r.length - tlsHmacHeaderSize) =
        cs.map List.length := by
  intro cs
  induction cs with
  | nil => intro h; rfl
  | cons c cs ih =>
    intro h
    have hrec : (specRecord f h c).length = tlsHmacHeaderSize + c.length := by
      unfold specRecord be16
      simp only [List.length_cons, List.length_append, List.length_take,
        List.length_cons, List.length_nil]
      have h4 := hf h.key (h.msg ++ c)
      have hmin : min hmacSize (f h.key (h.msg ++ c)).length = hmacSize :=
        Nat.min_eq_left h4
      rw [hmin]
      rfl
    show ((specEmit f (specAdvance f h c) cs).1,
        specRecord f h c :: (specEmit f (specAdvance f h c) cs).2).2.map
        (fun r => r.length - tlsHmacHeaderSize) = (c :: cs).map List.length
    rw [List.map_cons, List.map_cons, ih, hrec, Nat.add_sub_cancel_left]

/-- A payload of between one and two chunks splits into exactly its take
and its drop. -/
theorem chunks16_two (p : List Nat) (h1 : 16384 < p.length)
    (h2 : p.length ≤ 32768) :
    chunks16 p = [p.take 16384, p.drop 16384] := by
  have hp : p ≠ [] := List.length_pos.mp (by omega)
  unfold chunks16
  rw [dif_neg hp, if_pos h1]
  have hd1 : p.drop 16384 ≠ [] :=
    List.length_pos.mp (by rw [List.length_drop]; omega)
  unfold chunks16
  rw [dif_neg hd1, if_neg (by rw [List.length_drop]; omega)]

/-- Claim C7 (confirmed): `verifiedConn.Write` splits its payload into
successive 16384-byte fragments; each fragment is emitted as the record
`[0x17, 0x03, 0x03, len_hi, len_lo] ++ tag ++ payload` with the big-endian
length `4 + payload_len`, where the tag is computed by feeding the payload
into `hmacAdd` and the chain then advances by absorbing the tag; in
particular a 20000-byte write emits two records with payload lengths 16384
and then 3616. -/
theorem C7_write_fragmentation (f : Digest) (h : Hmac) (p : List Nat)
    (hf : ∀ k m, 4 ≤ (f k m).length) :
    verifiedConnWriteRecords f h p = specEmit f h (chunks16 p) ∧
    (p.length = 20000 →
      (verifiedConnWriteRecords f h p).2.map
        (fun r => r.length - tlsHmacHeaderSize) = [16384, 3616]) := by
  have heq := writeRecords_eq_specEmit f p.length p le_rfl h
  refine ⟨heq, fun h20 => ?_⟩
  rw [heq, specEmit_payload_lengths f hf, chunks16_two p (by omega) (by omega)]
  simp [List.length_take, List.length_drop, h20]

/-- A digest function returning a constant 20-byte string, the length of a
SHA-1 digest. -/
def cxDigest20 : Digest := fun _ _ => List.replicate 20 0

/-- Claim C7, witness: at a concrete 20000-byte payload and a 20-byte
digest function, the two emitted records carry payloads of 16384 and 3616
bytes. -/
theorem C7_write_fragmentation_witness :
    (∀ k m, 4 ≤ (cxDigest20 k m).length) ∧
    (verifiedConnWriteRecords cxDigest20 cxChain payload20000).2.map
      (fun r => r.length - tlsHmacHeaderSize) = [16384, 3616] :=
  have hf : ∀ k m, 4 ≤ (cxDigest20 k m).length := fun _ _ => by
    rw [show ∀ x y : List Nat, cxDigest20 x y = List.replicate 20 0 from
      fun _ _ => rfl]
    rw [List.length_replicate]
    norm_num
  ⟨hf, (C7_write_fragmentation cxDigest20 cxChain payload20000 hf).2
    (List.length_replicate _ _)⟩

/-- Dropping a composite offset factors through the two drops. -/
theorem drop_shift (d : List Nat) (p q : Nat) :
    d.drop (p + q) = (d.drop p).drop q :=
  (List.drop_drop q p d).symm

/-- The tail view of one more position dropped. -/
theorem drop_tail (d : List Nat) (p a : Nat) (rest : List Nat)
    (hd : d.drop p = a :: rest) : d.drop (p + 1) = rest := by
  rw [drop_shift d p 1, hd]
  rfl

/-- `readByte` at an exhausted position fails. -/
theorem readByte_none (d : List Nat) (p : Nat) (hd : d.drop p = []) :
    Reader.readByte ⟨d, p⟩ = none := by
  have hle := List.drop_eq_nil_iff.mp hd
  unfold Reader.readByte
  rw [if_neg (show ¬ p < d.length by omega)]

/-- `readByte` at a live position returns the byte there and advances. -/
theorem readByte_cons (d : List Nat) (p a : Nat) (rest : List Nat)
    (hd : d.drop p = a :: rest) :
    Reader.readByte ⟨d, p⟩ = some (a, ⟨d, p + 1⟩) := by
  have hlt : p < d.length := by
    by_contra hge
    rw [List.drop_eq_nil_of_le (Nat.le_of_not_lt hge)] at hd
    cases hd
  have hget : d.getD p 0 = a := by
    rw [List.getD_eq_getElem?_getD]
    have h1 : d[p]? = (d.drop p)[0]? := by
      rw [List.getElem?_drop]
      norm_num
    rw [h1, hd]
    simp
  unfold Reader.readByte
  rw [if_pos hlt, hget]

/-- `readU16` with two live bytes returns their big-endian value and
advances by two. -/
theorem readU16_cons (d : List Nat) (p a b : Nat) (rest : List Nat)
    (hd : d.drop p = a :: b :: rest) :
    Reader.readU16 ⟨d, p⟩ = some (256 * a + b, ⟨d, p + 2⟩) := by
  simp only [Reader.readU16, readByte_cons d p a (b :: rest) hd,
    readByte_cons d (p + 1) b rest (drop_tail d p a (b :: rest) hd)]

/-- `readU16` with fewer than two bytes left fails. -/
theorem readU16_none (d : List Nat) (p : Nat) (hlen : (d.drop p).length < 2) :
    Reader.readU16 ⟨d, p⟩ = none := by
  rcases hd : d.drop p with _ | ⟨a, rest⟩
  · unfold Reader.readU16
    rw [readByte_none d p hd]
  · rcases rest with _ | ⟨b, rest2⟩
    · simp only [Reader.readU16, readByte_cons d p a [] hd,
        readByte_none d (p + 1) (drop_tail d p a [] hd)]
    · rw [hd] at hlen
      simp at hlen
      omega

/-- `copyN` succeeds exactly when enough bytes remain past the position. -/
theorem copyN_eq (d : List Nat) (p n : Nat) (hp : p ≤ d.length) :
    Reader.copyN ⟨d, p⟩ n =
      if n ≤ (d.drop p).length then some ⟨d, p + n⟩ else none := by
  unfold Reader.copyN
  by_cases hn : n ≤ (d.drop p).length
  · rw [List.length_drop] at hn
    rw [if_pos (show p + n ≤ d.length by omega),
      if_pos (show n ≤ (d.drop p).length by rw [List.length_drop]; omega)]
  · rw [List.length_drop] at hn
    rw [if_neg (show ¬ p + n ≤ d.length by omega),
      if_neg (show ¬ n ≤ (d.drop p).length by rw [List.length_drop]; omega)]

/-- The reader-based extension loop of `isServerHelloSupportTLS13` computes
the claim's list-based extension scan. -/
theorem extLoop_eq_scan (d : List Nat) :
    ∀ n p, p ≤ d.length → extLoop n ⟨d, p⟩ = tls13ScanSpec n (d.drop p) := by
  intro n
  induction n with
  | zero => intro p _; rfl
  | succ n ih =>
    intro p hp
    rcases hd : d.drop p with _ | ⟨t1, r1⟩
    · simp only [extLoop, readU16_none d p (by rw [hd]; simp), tls13ScanSpec]
    · rcases r1 with _ | ⟨t0, r2⟩
      · simp only [extLoop, readU16_none d p (by rw [hd]; simp), tls13ScanSpec]
      · rcases r2 with _ | ⟨n1, r3⟩
        · have hd2 : d.drop (p + 2) = [] :=
            drop_tail d (p + 1) t0 [] (drop_tail d p t1 [t0] hd)
          simp only [extLoop, readU16_cons d p t1 t0 [] hd,
            readU16_none d (p + 2) (by rw [hd2]; simp), tls13ScanSpec]
        · rcases r3 with _ | ⟨n0, body⟩
          · have hd2 : d.drop (p + 2) = [n1] :=
              drop_tail d (p + 1) t0 [n1] (drop_tail d p t1 [t0, n1] hd)
            simp only [extLoop, readU16_cons d p t1 t0 [n1] hd,
              readU16_none d (p + 2) (by rw [hd2]; simp), tls13ScanSpec]
          · have hd1 : d.drop (p + 1) = t0 :: n1 :: n0 :: body :=
              drop_tail d p t1 _ hd
            have hd2 : d.drop (p + 2) = n1 :: n0 :: body :=
              drop_tail d (p + 1) t0 _ hd1
            have hd3 : d.drop (p + 3) = n0 :: body :=
              drop_tail d (p + 2) n1 _ hd2
            have hd4 : d.drop (p + 4) = body :=
              drop_tail d (p + 3) n0 _ hd3
            have hlen4 : p + 4 + body.length = d.length := by
              have h1 : (d.drop p).length = body.length + 4 := by
                rw [hd]
                simp
              rw [List.length_drop] at h1
              omega
            simp only [extLoop, readU16_cons d p t1 t0 (n1 :: n0 :: body) hd,
              readU16_cons d (p + 2) n1 n0 body hd2]
            have e44 : p + 2 + 2 = p + 4 := by omega
            rw [e44]
            by_cases ht : 256 * t1 + t0 = 43
            · by_cases h2 : 256 * n1 + n0 = 2
              · rcases hb : body with _ | ⟨v1, rb⟩
                · subst hb
                  simp [tls13ScanSpec, ht, h2,
                    readU16_none d (p + 4) (by rw [hd4]; simp)]
                · rcases rb with _ | ⟨v0, rb2⟩
                  · subst hb
                    simp [tls13ScanSpec, ht, h2,
                      readU16_none d (p + 4) (by rw [hd4]; simp)]
                  · subst hb
                    simp [tls13ScanSpec, ht, h2,
                      readU16_cons d (p + 4) v1 v0 rb2 hd4]
              · simp [tls13ScanSpec, ht, h2]
            · by_cases hle : 256 * n1 + n0 ≤ body.length
              · have hcopy : Reader.copyN ⟨d, p + 4⟩ (256 * n1 + n0) =
                    some ⟨d, p + 4 + (256 * n1 + n0)⟩ := by
                  rw [copyN_eq d (p + 4) _ (by omega),
                    if_pos (by rw [hd4]; exact hle)]
                have hdrop : d.drop (p + 4 + (256 * n1 + n0)) =
                    body.drop (256 * n1 + n0) := by
                  rw [drop_shift d (p + 4) _, hd4]
                have hrec := ih (p + 4 + (256 * n1 + n0)) (by omega)
                rw [hdrop] at hrec
                simp [tls13ScanSpec, ht, hle, hcopy, hrec]
              · have hcopy : Reader.copyN ⟨d, p + 4⟩ (256 * n1 + n0) = none := by
                  rw [copyN_eq d (p + 4) _ (by omega),
                    if_neg (by rw [hd4]; exact hle)]
                simp [tls13ScanSpec, ht, hle, hcopy]

/-- Claim C5 (confirmed): `isServerHelloSupportTLS13` equals the claim's
description of `is_tls13`: parse from offset 43 a 1-byte session-id length,
skip that many bytes, skip 3 bytes, read a big-endian u16 extension list
length, then scan (type, length, value) extensions in order; the first
supported_versions (0x002B) extension decides — true iff its length is
exactly 2 and its value 0x0304 — every other extension skips its length,
and any truncation or an exhausted list yields false. -/
theorem C5_is_tls13 (frame : List Nat) :
    isServerHelloSupportTLS13 frame = isTLS13Spec frame := by
  unfold isServerHelloSupportTLS13 isTLS13Spec
  by_cases hlen : frame.length < sessionIDLengthIndex
  · rw [if_pos hlen, if_pos hlen]
  · rw [if_neg hlen, if_neg hlen]
    rcases hd0 : frame.drop sessionIDLengthIndex with _ | ⟨sLen, rest⟩
    · simp [readByte_none [] 0 rfl]
    · simp only [readByte_cons (sLen :: rest) 0 sLen rest rfl]
      have e01 : (0 : Nat) + 1 = 1 := rfl
      rw [e01]
      have hdd1 : (sLen :: rest).drop 1 = rest := by simp
      by_cases hcond : sLen + 3 ≤ rest.length
      · have hc1 : Reader.copyN ⟨sLen :: rest, 1⟩ sLen =
            some ⟨sLen :: rest, 1 + sLen⟩ := by
          rw [copyN_eq (sLen :: rest) 1 sLen (by simp only [List.length_cons]; omega),
            if_pos (by rw [hdd1]; omega)]
        have hshift2 : (sLen :: rest).drop (1 + sLen) = rest.drop sLen := by
          rw [drop_shift (sLen :: rest) 1 sLen, hdd1]
        have hc2 : Reader.copyN ⟨sLen :: rest, 1 + sLen⟩ 3 =
            some ⟨sLen :: rest, 1 + sLen + 3⟩ := by
          rw [copyN_eq (sLen :: rest) (1 + sLen) 3
              (by simp only [List.length_cons]; omega),
            if_pos (by rw [hshift2, List.length_drop]; omega)]
        have hAll : (sLen :: rest).drop (1 + sLen + 3) = rest.drop (sLen + 3) := by
          rw [drop_shift (sLen :: rest) (1 + sLen) 3, hshift2,
            ← drop_shift rest sLen 3]
        rw [if_pos hcond]
        rcases hre : rest.drop (sLen + 3) with _ | ⟨e1, r5⟩
        · simp [hc1, hc2,
            readU16_none (sLen :: rest) (1 + sLen + 3) (by rw [hAll, hre]; simp)]
        · rcases r5 with _ | ⟨e0, bodyx⟩
          · simp [hc1, hc2,
              readU16_none (sLen :: rest) (1 + sLen + 3) (by rw [hAll, hre]; simp)]
          · have hu : Reader.readU16 ⟨sLen :: rest, 1 + sLen + 3⟩ =
                some (256 * e1 + e0, ⟨sLen :: rest, 1 + sLen + 3 + 2⟩) :=
              readU16_cons (sLen :: rest) (1 + sLen + 3) e1 e0 bodyx
                (by rw [hAll]; exact hre)
            have hbound : 1 + sLen + 3 + 2 ≤ (sLen :: rest).length := by
              have h1 : (rest.drop (sLen + 3)).length = bodyx.length + 2 := by
                rw [hre]
                simp
              rw [List.length_drop] at h1
              simp only [List.length_cons]
              omega
            have hext := extLoop_eq_scan (sLen :: rest) (256 * e1 + e0)
              (1 + sLen + 3 + 2) hbound
            have hdropext : (sLen :: rest).drop (1 + sLen + 3 + 2) = bodyx := by
              rw [drop_shift (sLen :: rest) (1 + sLen + 3) 2, hAll, hre]
              simp
            rw [hdropext] at hext
            simp [hc1, hc2, hu, hext]
      · rw [if_neg hcond]
        by_cases hc1c : sLen ≤ rest.length
        · have hc1 : Reader.copyN ⟨sLen :: rest, 1⟩ sLen =
              some ⟨sLen :: rest, 1 + sLen⟩ := by
            rw [copyN_eq (sLen :: rest) 1 sLen
                (by simp only [List.length_cons]; omega),
              if_pos (by rw [hdd1]; omega)]
          have hshift2 : (sLen :: rest).drop (1 + sLen) = rest.drop sLen := by
            rw [drop_shift (sLen :: rest) 1 sLen, hdd1]
          have hc2 : Reader.copyN ⟨sLen :: rest, 1 + sLen⟩ 3 = none := by
            rw [copyN_eq (sLen :: rest) (1 + sLen) 3
                (by simp only [List.length_cons]; omega),
              if_neg (by rw [hshift2, List.length_drop]; omega)]
          simp [hc1, hc2]
        · have hc1 : Reader.copyN ⟨sLen :: rest, 1⟩ sLen = none := by
            rw [copyN_eq (sLen :: rest) 1 sLen
                (by simp only [List.length_cons]; omega),
              if_neg (by rw [hdd1]; omega)]
          simp [hc1]

end ShadowTLS
